import Mathlib

/-!
Verification of the incremental test-suite reconciliation engine of the
TestCaseGenerator repository.  The definitions below are a shallow embedding of
the Python sources: `app.py` (remove_test_cases_from_csv, the git chat flow in
display_chat), `csv_handler.py` (append_to_previous_csv and the CSV writers),
`git_handler.py` (get_code_files, _sanitize_repo_name, the GitHandler method
table) and `llm_handler.py` (_make_request).  Strings are modelled over their
character lists so that every definition reduces in the kernel.
-/

namespace TestCaseGen

/-! ### String helpers (models of the Python string/pathlib operations used) -/

/-- Split a character list on a separator character, keeping empty pieces,
modelling Python `str.split(sep)` for a one-character separator. -/
def splitOnChar (sep : Char) : List Char → List (List Char)
  | [] => [[]]
  | c :: cs =>
    let rest := splitOnChar sep cs
    if c = sep then
      [] :: rest
    else
      match rest with
      | p :: ps => (c :: p) :: ps
      | [] => [[c]]

/-- Model of `str.lower()` (ASCII case folding; the strings the code compares
with lower-cased values are ASCII). -/
def pyToLower (s : String) : String :=
  String.mk (s.toList.map Char.toLower)

/-- Containment of one character list in another. -/
def listContainsSub (pat : List Char) : List Char → Bool
  | [] => pat.isEmpty
  | c :: cs => pat.isPrefixOf (c :: cs) || listContainsSub pat cs

/-- Model of Python `sub in s` (substring containment). -/
def strContainsSub (s pat : String) : Bool :=
  listContainsSub pat.toList s.toList

/-- Model of Python `str.isalnum()` restricted to ASCII; the sanitizer filter
and the character-set theorem both use this same predicate. -/
def pyIsAlnum (c : Char) : Bool :=
  c.isAlphanum

/-- Model of `pathlib.PurePosixPath(s).name`: the last path component, with
empty components and single-dot components dropped. -/
def pathName (s : String) : String :=
  let comps := (splitOnChar '/' s.toList).filter (fun c => c ≠ [] && c ≠ ['.'])
  String.mk (comps.getLastD [])

/-- Model of `pathlib.PurePosixPath(s).suffix` applied to a file name:
the part of the name from the last dot on, empty when the last dot is the
first or the last character of the name. -/
def pySuffix (s : String) : String :=
  let parts := splitOnChar '.' s.toList
  if 2 ≤ parts.length then
    if parts.getLastD [] = [] then ""
    else if parts.length = 2 ∧ parts.headD [] = [] then ""
    else String.mk ('.' :: parts.getLastD [])
  else ""

/-- Model of `str.rstrip('/')`. -/
def pyRstripSlashes (s : String) : String :=
  String.mk ((s.toList.reverse.dropWhile (fun c => c == '/')).reverse)

/-! ### Test-suite rows

A persisted suite is a CSV file; both writer formats carry a `Source File`
column, a `Change Type` column and a target/description text probed by the
function-removal heuristic.  A `Row` keeps those three and folds the remaining
columns (id, steps, priority, dates, ...) into an opaque `payload`. -/

structure Row where
  sourceFile : String
  target : String
  changeType : String
  payload : String
deriving DecidableEq, Repr

/-- `app.py` 170-178: the row's file name is the basename of the first file
column present; persisted suites produced by `csv_handler.py` only carry the
`Source File` column, so the chain reduces to its basename. -/
def rowFileName (r : Row) : String :=
  pathName r.sourceFile

/-- `app.py` 213-235: the ad-hoc substring heuristics matching a test's target
text against a removed function name. -/
def matchesRemovedFunc (target removedFunc : String) : Bool :=
  let tl := pyToLower target
  let rl := pyToLower removedFunc
  strContainsSub target removedFunc ||
  strContainsSub tl rl ||
  strContainsSub tl ("test_" ++ rl) ||
  strContainsSub tl (rl ++ "()") ||
  strContainsSub tl (rl ++ "_") ||
  tl.toList.take rl.toList.length == rl.toList ||
  rl.toList.isSuffixOf tl.toList

inductive RemovalReason where
  | deletedFile
  | modifiedFile
  | removedFunction
deriving DecidableEq, Repr

/-- Per-reason removal counters (`removal_stats` in `app.py` 164-168). -/
structure RemovalStats where
  deletedFiles : Nat
  modifiedFiles : Nat
  removedFunctions : Nat
deriving DecidableEq, Repr

/-- `app.py` 180-235: why a row is removed, or `none` to keep it.  The first
two checks require a nonempty file name (`if file_name and ...`); the
function-removal branch requires a nonempty removed-functions dict. -/
def removalReason (deletedNames modifiedNames : List String)
    (removedFunctions : List (String × List String)) (r : Row) :
    Option RemovalReason :=
  if rowFileName r ≠ "" ∧ rowFileName r ∈ deletedNames then some .deletedFile
  else if rowFileName r ≠ "" ∧ rowFileName r ∈ modifiedNames then
    some .modifiedFile
  else if removedFunctions ≠ [] then
    match removedFunctions.lookup (rowFileName r) with
    | some funcs =>
      if funcs.any (fun g => matchesRemovedFunc r.target g) then
        some .removedFunction
      else none
    | none => none
  else none

/-- The rows `remove_test_cases_from_csv` keeps, in their original order. -/
def keptRows (rows : List Row) (deletedFiles : List String)
    (removedFunctions : List (String × List String))
    (modifiedFiles : List String) : List Row :=
  rows.filter (fun r =>
    (removalReason (deletedFiles.map pathName) (modifiedFiles.map pathName)
      removedFunctions r).isNone)

/-- `app.py` 132-259, `remove_test_cases_from_csv`: with no removal inputs the
CSV is returned untouched (line 144-145); otherwise rows whose basename is in
the basename sets of `deleted_files` / `modified_files` (or matched by the
function heuristic) are dropped, the rest kept in order. -/
def removeTestCasesFromCsv (rows : List Row) (deletedFiles : List String)
    (removedFunctions : List (String × List String))
    (modifiedFiles : List String) : List Row × Nat × RemovalStats :=
  if deletedFiles = [] ∧ removedFunctions = [] ∧ modifiedFiles = [] then
    (rows, 0, ⟨0, 0, 0⟩)
  else
    (keptRows rows deletedFiles removedFunctions modifiedFiles,
     rows.length - (keptRows rows deletedFiles removedFunctions modifiedFiles).length,
     ⟨(rows.filter (fun r =>
         removalReason (deletedFiles.map pathName) (modifiedFiles.map pathName)
           removedFunctions r == some .deletedFile)).length,
      (rows.filter (fun r =>
         removalReason (deletedFiles.map pathName) (modifiedFiles.map pathName)
           removedFunctions r == some .modifiedFile)).length,
      (rows.filter (fun r =>
         removalReason (deletedFiles.map pathName) (modifiedFiles.map pathName)
           removedFunctions r == some .removedFunction)).length⟩)

/-! ### Change descriptors and the file-status classifier -/

/-- An element of `change_info["changed_files"]`: either a dict
`{status, file}` or a bare path string (`app.py` 752-771). -/
inductive ChangeEntry where
  | dict (status : String) (file : String)
  | str (path : String)
deriving DecidableEq, Repr

/-- The normalized `change_info` dictionary: `has_changes`, `is_new_repo`,
`changed_files`, and the `new_files` / `deleted_files` / `modified_files` keys
read with a `[]` default by the string branch of the classifier and by the
CSV appenders. -/
structure ChangeInfo where
  hasChanges : Bool
  isNewRepo : Bool
  changedFiles : List ChangeEntry
  newFiles : List String
  deletedFiles : List String
  modifiedFiles : List String
deriving DecidableEq, Repr

inductive Cat where
  | added
  | modified
  | deleted
deriving DecidableEq, Repr

/-- `app.py` 752-771: classify one changed-file entry.  A dict entry goes by
its status code: `A` to added, `D` to deleted, `M` or `R` to modified, any
other status nowhere.  A bare path is looked up in the `new_files` /
`deleted_files` / `modified_files` keys, defaulting to modified. -/
def classifyEntry (newFiles deletedFiles modifiedFiles : List String) :
    ChangeEntry → Option (Cat × String)
  | .dict status file =>
    if status = "A" then some (.added, file)
    else if status = "D" then some (.deleted, file)
    else if status = "M" ∨ status = "R" then some (.modified, file)
    else none
  | .str p =>
    if p ∈ newFiles then some (.added, p)
    else if p ∈ deletedFiles then some (.deleted, p)
    else if p ∈ modifiedFiles then some (.modified, p)
    else some (.modified, p)

/-- The list of files the classifier puts in one category, in entry order. -/
def classifiedFiles (ci : ChangeInfo) (c : Cat) : List String :=
  ci.changedFiles.filterMap (fun e =>
    match classifyEntry ci.newFiles ci.deletedFiles ci.modifiedFiles e with
    | some (cat, f) => if cat = c then some f else none
    | none => none)

/-! ### Appending newly generated tests -/

/-- A freshly synthesized test as handed to the CSV appenders: its `file` key,
its target text, and the rest of its fields folded into `payload`. -/
structure NewTest where
  file : String
  target : String
  payload : String
deriving DecidableEq, Repr

/-- `csv_handler.py` 165 and 244: every previous row is rewritten with
`Change Type = 'Existing'` before being re-emitted. -/
def setExisting (r : Row) : Row :=
  { r with changeType := "Existing" }

/-- `csv_handler.py` 176-180 and 253-257: the change-type label of a new test,
from the `modified_files` / `new_files` keys of `change_info`. -/
def newTestChangeType (ci : ChangeInfo) (t : NewTest) : String :=
  if t.file ∈ ci.modifiedFiles then "Modified File"
  else if t.file ∈ ci.newFiles then "New File"
  else "New"

/-- A new test formatted as an appended row (`csv_handler.py` 182-211 and
259-271): `Source File` is the test's `file` key; id, date and priority
columns are folded into the payload. -/
def formatNewRow (ci : ChangeInfo) (t : NewTest) : Row :=
  { sourceFile := t.file, target := t.target,
    changeType := newTestChangeType ci t, payload := t.payload }

/-- A new test formatted by `generate_csv` (no `change_info`), which writes no
`Change Type` column at all (`csv_handler.py` 303-367): modelled as an empty
change-type field. -/
def freshRowNoChange (t : NewTest) : Row :=
  { sourceFile := t.file, target := t.target, changeType := "",
    payload := t.payload }

/-- A new test formatted by `generate_csv_with_repo_name` with a `change_info`
argument, which labels every row `Change Type = 'New'`
(`csv_handler.py` 361-362 and 413-414). -/
def freshRowWithChange (t : NewTest) : Row :=
  { sourceFile := t.file, target := t.target, changeType := "New",
    payload := t.payload }

/-- `csv_handler.py` 137-214 / 216-276: previous rows re-emitted in order with
`Change Type = 'Existing'`, then the new tests appended in order. -/
def appendProfessionalCsv (prev : List Row) (newTests : List NewTest)
    (ci : ChangeInfo) : List Row :=
  prev.map setExisting ++ newTests.map (formatNewRow ci)

/-- `csv_handler.py` 46-95, `append_to_previous_csv`: the previous CSV is read
inside a try/except; a failed read degrades to `generate_csv(new_test_cases)`
(a fresh file of only the new rows), otherwise the rows are appended. -/
def appendToPreviousCsv (prevRead : Option (List Row))
    (newTests : List NewTest) (ci : ChangeInfo) : List Row :=
  match prevRead with
  | none => newTests.map freshRowNoChange
  | some prev => appendProfessionalCsv prev newTests ci

/-! ### The reconciliation pipeline -/

/-- `app.py` 879-944: the suite-reconciliation step of the git flow.  Stale
rows are removed first with `remove_test_cases_from_csv` (called with
`removed_functions=None`, line 884); then line 895 branches on `if tests:` —
and `tests` is the dict `generate_tests` returns, which always carries the
three test-type keys (`test_generator.py` 45-49) and is therefore truthy
whenever the generation step ran, even when every list is empty.
`generationRan` models that truthiness and `newTests` the flattened rows: when
generation ran the appender runs (rewriting every kept row's `Change Type` to
`Existing`) even with zero new rows; only when generation never ran (`tests`
stayed the falsy `{}`, line 845) is the cleaned suite returned as-is
(line 929). -/
def reconcile (prev : List Row) (deletedFiles modifiedFiles : List String)
    (generationRan : Bool) (newTests : List NewTest) (ci : ChangeInfo) :
    List Row :=
  if generationRan then
    appendProfessionalCsv
      (removeTestCasesFromCsv prev deletedFiles [] modifiedFiles).1 newTests ci
  else (removeTestCasesFromCsv prev deletedFiles [] modifiedFiles).1

/-- `app.py` 879-944 with the file reads made explicit.  The previous suite is
passed as `Option (List Row)` (`none` = the file exists but cannot be read or
parsed).  `remove_test_cases_from_csv` opens the file with no try/except
(line 152), so when a removal set is nonempty an unreadable file propagates to
the generic handler at line 1023; when both removal sets are empty the removal
step early-returns the unread path (lines 144-145) and either the guarded read
inside `append_to_previous_csv` (when generation ran, line 895) or the
row-count read at lines 931-932 (when it did not) decides the outcome. -/
def reconcileFromDisk (prevRead : Option (List Row))
    (deletedFiles modifiedFiles : List String) (generationRan : Bool)
    (newTests : List NewTest) (ci : ChangeInfo) : Except String (List Row) :=
  if deletedFiles = [] ∧ modifiedFiles = [] then
    if generationRan then .ok (appendToPreviousCsv prevRead newTests ci)
    else
      match prevRead with
      | some rows => .ok rows
      | none => .error "Git processing failed"
  else
    match prevRead with
    | none => .error "Git processing failed"
    | some rows =>
      .ok (reconcile rows deletedFiles modifiedFiles generationRan newTests ci)

/-- Outcome of one git synchronization turn: the resulting suite together with
the tests generated during the turn, or the error message shown. -/
inductive SyncOutcome where
  | suite (rows : List Row) (generatedTests : List NewTest)
  | failed (msg : String)
deriving DecidableEq, Repr

/-- `app.py` 712-955: the git-flow suite handling for one synchronization.
`prev` is the previous persisted suite when one is found (`none` when neither
the session cache nor the disk lookup yields one), `ci` the normalized change
descriptor, and `gen` the outcome of the parse-and-generate step:
`none` when nothing was parsed (`tests` stays the falsy `{}`, line 845), and
`some rows` when generation ran — `generate_tests` then returns a truthy dict
even when `rows` is empty (`test_generator.py` 45-49).  When `has_changes`,
only added+modified files are handed to generation (lines 773, 787-802).
Branches, in source order: the no-changes early return (713-742, taken only
when a previous CSV is found, line 716), the parse-failure guard (858-862),
and the CSV stage (864-955): removal and, when `tests` is truthy, append
(879-944); otherwise the fresh-CSV path or the no-tests error (946-955). -/
def syncSuite (prev : Option (List Row)) (ci : ChangeInfo)
    (gen : Option (List NewTest)) : SyncOutcome :=
  if ci.hasChanges = false ∧ ci.isNewRepo = false ∧ prev.isSome then
    .suite (prev.getD []) []
  else
    let added := classifiedFiles ci .added
    let modified := classifiedFiles ci .modified
    let deleted := classifiedFiles ci .deleted
    let tests : Option (List NewTest) := if ci.hasChanges then
        (if added ++ modified = [] then none else gen)
      else gen
    match tests with
    | none =>
      if ci.hasChanges = false ∨ deleted = [] then
        .failed "No code files could be parsed."
      else
        match prev with
        | some p =>
          if ci.hasChanges then
            .suite (reconcile p deleted modified false [] ci) []
          else .failed "No tests generated and no previous CSV found."
        | none => .failed "No tests generated and no previous CSV found."
    | some rows =>
      match prev with
      | some p =>
        if ci.hasChanges then
          .suite (reconcile p deleted modified true rows ci) rows
        else .suite (rows.map freshRowWithChange) rows
      | none => .suite (rows.map freshRowWithChange) rows

/-- Modelled from the spec: `GitHandler.clone_or_pull_repository`, the
producer of change descriptors, is missing from the source (it is only called
in `app.py`).  Spec §4.4 gives the synchronizer two terminal states, NewClone
(`is_new_repo = true`) and Updated, and `has_changes = false` arises only on
the Updated fast path where a previous working copy exists; so a descriptor
the synchronizer produces with `has_changes = false` has
`is_new_repo = false`. -/
def SpecSyncDescriptor (ci : ChangeInfo) : Prop :=
  ci.hasChanges = false → ci.isNewRepo = false

/-! ### The GitHandler method table (`git_handler.py`)

`class GitHandler:` has no base class and no `__getattr__`; its attribute
table is exactly the methods defined in the class body (lines 17-587). -/

def gitHandlerMethods : List String :=
  ["__init__", "_check_git_availability", "get_default_branch",
   "clone_repository", "get_current_branch", "get_code_files",
   "get_repo_structure", "_sanitize_repo_name", "get_file_content",
   "cleanup", "get_commit_info", "get_branch_list",
   "list_available_branches"]

inductive GitFlowOutcome where
  | completed (suite : List Row)
  | gitProcessingFailed
deriving DecidableEq, Repr

/-- `app.py` 702-711 and 1023-1030: the git flow's first repository operation
is `gh.clone_or_pull_repository(...)`.  Accessing a method not in the class's
attribute table raises `AttributeError`, and the enclosing
`except Exception` turns any exception into the "Git processing failed"
handler, which produces no suite.  `pipelineResult` stands for whatever the
rest of the pipeline would have produced had the call existed. -/
def runGitFlow (methods : List String) (pipelineResult : List Row) :
    GitFlowOutcome :=
  if "clone_or_pull_repository" ∈ methods then .completed pipelineResult
  else .gitProcessingFailed

/-! ### The LLM request loop (`llm_handler.py` 46-96) -/

/-- One attempt's outcome at the Gemini API boundary: a response text, or a
raised exception with its message. -/
inductive CallResult where
  | ok (text : String)
  | err (msg : String)
deriving DecidableEq, Repr

/-- The trace of `_make_request`: the returned string, the number of loop
iterations executed, and the sleeps performed (in seconds, in order). -/
structure ReqTrace where
  result : String
  attempts : Nat
  delays : List Nat
deriving DecidableEq, Repr

def quotaErrorText : String :=
  "Error: API quota exceeded. Please check your Gemini API usage."

def apiKeyErrorText : String :=
  "Error: Invalid API key. Please check your GEMINI_API_KEY."

/-- `llm_handler.py` 59-96: the retry loop of `_make_request`.  `responses i`
is what the API call returns on attempt `i`.  A nonempty response returns it;
an empty response retries after a doubling sleep, or returns an error string
on the last attempt; an exception whose lower-cased message contains
`"quota"` or `"api key"` returns an error string immediately with no retry;
any other exception retries after a doubling sleep, or returns the error on
the last attempt. -/
def requestLoop (responses : Nat → CallResult) (maxRetries : Nat) :
    Nat → Nat → Nat → List Nat → ReqTrace
  | 0, attempt, _, delays => ⟨"Error: Max retries exceeded", attempt, delays⟩
  | fuel + 1, attempt, delay, delays =>
    match responses attempt with
    | .ok t =>
      if t = "" then
        if attempt + 1 < maxRetries then
          requestLoop responses maxRetries fuel (attempt + 1) (delay * 2)
            (delays ++ [delay])
        else ⟨"Error: Empty response from Gemini", attempt + 1, delays⟩
      else ⟨t, attempt + 1, delays⟩
    | .err m =>
      if strContainsSub (pyToLower m) "quota" then
        ⟨quotaErrorText, attempt + 1, delays⟩
      else if strContainsSub (pyToLower m) "api key" then
        ⟨apiKeyErrorText, attempt + 1, delays⟩
      else if attempt + 1 < maxRetries then
        requestLoop responses maxRetries fuel (attempt + 1) (delay * 2)
          (delays ++ [delay])
      else ⟨"Error: " ++ m, attempt + 1, delays⟩

/-- `_make_request` with its initial `retry_delay = 2`. -/
def makeRequest (responses : Nat → CallResult) (maxRetries : Nat) : ReqTrace :=
  requestLoop responses maxRetries maxRetries 0 2 []

/-- An attempt outcome the loop treats as transient: an empty response, or an
exception whose message mentions neither quota nor api key. -/
def transientFailure : CallResult → Bool
  | .ok t => t == ""
  | .err m => !(strContainsSub (pyToLower m) "quota") &&
      !(strContainsSub (pyToLower m) "api key")

/-! ### The source scanner (`git_handler.py` 270-333, `get_code_files`) -/

/-- A file as the scanner sees it: its name, its size in bytes, and whether
`stat()` succeeds on it (lines 307-320 skip files whose stat raises). -/
structure FileEntry where
  name : String
  size : Nat
  readable : Bool
deriving DecidableEq, Repr

mutual
inductive FSTree where
  | node (name : String) (files : List FileEntry) (subdirs : FSForest)

inductive FSForest where
  | noDirs
  | cons (t : FSTree) (ts : FSForest)
end

def FSTree.dirName : FSTree → String
  | .node n _ _ => n

/-- `git_handler.py` 22-26: the supported code file extensions. -/
def codeExtensions : List String :=
  [".py", ".js", ".jsx", ".ts", ".tsx", ".java", ".cpp", ".c",
   ".cs", ".go", ".rb", ".php", ".swift", ".kt", ".rs", ".scala",
   ".r", ".m", ".h", ".hpp", ".cc", ".cxx"]

/-- `git_handler.py` 286-291: the excluded directory names. -/
def excludeDirs : List String :=
  [".git", "node_modules", "venv", ".venv", "env", "__pycache__",
   "dist", "build", "target", ".idea", "vendor", "deps", ".next",
   "coverage", ".pytest_cache", ".mypy_cache", "bin", "obj",
   "packages", ".gradle", ".vs", "Debug", "Release"]

/-- `git_handler.py` 298: a directory is descended into exactly when its name
is not excluded and does not start with a dot. -/
def keepDir (t : FSTree) : Bool :=
  !(excludeDirs.contains t.dirName) &&
  !(match t.dirName.toList with
    | '.' :: _ => true
    | _ => false)

/-- `git_handler.py` 300-320: the per-file loop of one `os.walk` root.  A file
is appended when its lower-cased suffix is a code extension, its stat
succeeds, and its size is under 1,000,000 bytes; reaching `max_files` right
after an append breaks the loop. -/
def scanFilesAcc (maxFiles : Nat) (acc : List FileEntry) :
    List FileEntry → List FileEntry
  | [] => acc
  | f :: fs =>
    if codeExtensions.contains (pyToLower (pySuffix f.name)) then
      if f.readable then
        if f.size < 1000000 then
          if maxFiles ≤ acc.length + 1 then acc ++ [f]
          else scanFilesAcc maxFiles (acc ++ [f]) fs
        else scanFilesAcc maxFiles acc fs
      else scanFilesAcc maxFiles acc fs
    else scanFilesAcc maxFiles acc fs

mutual
/-- `git_handler.py` 296-323: `os.walk` top-down over one directory: the
root's files first, then —unless `max_files` was reached, which breaks the
walk— its kept subdirectories in order. -/
def scanTree (maxFiles : Nat) (acc : List FileEntry) : FSTree → List FileEntry
  | .node _ files subdirs =>
    if maxFiles ≤ (scanFilesAcc maxFiles acc files).length then
      scanFilesAcc maxFiles acc files
    else scanForest maxFiles (scanFilesAcc maxFiles acc files) subdirs

def scanForest (maxFiles : Nat) (acc : List FileEntry) :
    FSForest → List FileEntry
  | .noDirs => acc
  | .cons t ts =>
    if keepDir t then
      if maxFiles ≤ (scanTree maxFiles acc t).length then
        scanTree maxFiles acc t
      else scanForest maxFiles (scanTree maxFiles acc t) ts
    else scanForest maxFiles acc ts
end

/-- `get_code_files(repo_path, max_files)` on the modelled tree. -/
def getCodeFiles (t : FSTree) (maxFiles : Nat) : List FileEntry :=
  scanTree maxFiles [] t

/-- The conditions under which the scanner keeps a file. -/
def qualifies (e : FileEntry) : Bool :=
  codeExtensions.contains (pyToLower (pySuffix e.name)) && e.readable &&
  decide (e.size < 1000000)

mutual
/-- All files of the tree that the walk can reach (files of the root and,
recursively, of every kept subdirectory). -/
def visibleFiles : FSTree → List FileEntry
  | .node _ files subdirs => files ++ visibleForest subdirs

def visibleForest : FSForest → List FileEntry
  | .noDirs => []
  | .cons t ts =>
    (if keepDir t then visibleFiles t else []) ++ visibleForest ts
end

/-! ### The repository-name sanitizer (`git_handler.py` 407-422) -/

/-- `_sanitize_repo_name` steps 1-2 (`git_handler.py` 409-414): the last
`/`-separated piece of the URL with trailing slashes stripped, with a trailing
`.git` dropped. -/
def sanitizeBase (repoUrl : String) : List Char :=
  if ".git".toList.isSuffixOf
      ((splitOnChar '/' (pyRstripSlashes repoUrl).toList).getLastD []) then
    ((splitOnChar '/' (pyRstripSlashes repoUrl).toList).getLastD []).take
      (((splitOnChar '/' (pyRstripSlashes repoUrl).toList).getLastD []).length - 4)
  else (splitOnChar '/' (pyRstripSlashes repoUrl).toList).getLastD []

/-- `_sanitize_repo_name` step 3 (`git_handler.py` 417): keep only
alphanumeric characters, hyphens and underscores. -/
def sanitizeKept (repoUrl : String) : List Char :=
  (sanitizeBase repoUrl).filter (fun c => pyIsAlnum c || c == '-' || c == '_')

/-- `_sanitize_repo_name` (`git_handler.py` 407-422): the sanitized name, or
`"repo"` when nothing remains. -/
def sanitizeRepoName (repoUrl : String) : String :=
  if sanitizeKept repoUrl = [] then "repo" else String.mk (sanitizeKept repoUrl)

/-! ### Concrete inputs used by counterexamples and witnesses -/

/-- A change descriptor with changes and empty key lists. -/
def exCI : ChangeInfo := ⟨true, false, [], [], [], []⟩

/-- A freshly generated test for `a.py`. -/
def exTestA : NewTest := ⟨"a.py", "helper", "payloadA"⟩

/-- A previous-suite row for `b.py` whose change type is `New` (as rows
appended by the previous run are persisted). -/
def exRowB : Row := ⟨"b.py", "desc b", "New", "payloadB"⟩

/-- A previous-suite row whose source-file field is empty. -/
def exRowEmpty : Row := ⟨"", "desc", "New", "payloadE"⟩

/-- A previous suite of one row for `s.py`. -/
def exRowS : Row := ⟨"s.py", "desc s", "Existing", "payloadS"⟩

/-- A change descriptor reporting one renamed file. -/
def exRenameCI : ChangeInfo :=
  ⟨true, false, [.dict "R" "new_name.py"], [], [], []⟩

/-- A response sequence whose first attempt raises a quota error and whose
later attempts would succeed. -/
def quotaFirstRun : Nat → CallResult :=
  fun i => if i = 0 then .err "429 You exceeded your current quota" else .ok "[]"

/-- A response sequence that raises a connection error on every attempt. -/
def timeoutRun : Nat → CallResult :=
  fun _ => .err "Connection reset by peer"

/-- A repository tree with a single allowed-extension file of exactly
1,000,000 bytes. -/
def exBoundaryTree : FSTree :=
  .node "repo" [⟨"big.py", 1000000, true⟩] .noDirs

/-- A repository tree with one small python file and one excluded
directory. -/
def exSmallTree : FSTree :=
  .node "repo" [⟨"main.py", 120, true⟩, ⟨"README", 50, true⟩]
    (.cons (.node "node_modules" [⟨"dep.js", 10, true⟩] .noDirs) .noDirs)

/-- The small python file of `exSmallTree`. -/
def exMainFile : FileEntry := ⟨"main.py", 120, true⟩

/-- A no-change descriptor, as the Updated fast path of the synchronizer
produces it. -/
def exNoChangeCI : ChangeInfo := ⟨false, false, [], [], [], []⟩

/-! ## Shared helper lemmas -/

theorem removeTestCases_fst (rows : List Row) (d m : List String) :
    (removeTestCasesFromCsv rows d [] m).1 =
      if d = [] ∧ m = [] then rows else keptRows rows d [] m := by
  unfold removeTestCasesFromCsv
  by_cases h : d = [] ∧ m = []
  · rw [if_pos ⟨h.1, rfl, h.2⟩, if_pos h]
  · rw [if_neg (fun hh => h ⟨hh.1, hh.2.2⟩), if_neg h]

theorem filter_map_setExisting (p : Row → Bool) (l : List Row)
    (hp : ∀ r, p (setExisting r) = p r) :
    (l.map setExisting).filter p = (l.filter p).map setExisting := by
  induction l with
  | nil => rfl
  | cons a l ih =>
    simp only [List.map_cons, List.filter_cons, hp a, ih]
    cases p a <;> simp

theorem filter_filter_of_imp {α : Type} (p q : α → Bool)
    (h : ∀ a, p a = true → q a = true) (l : List α) :
    (l.filter q).filter p = l.filter p := by
  induction l with
  | nil => rfl
  | cons a l ih =>
    cases hq : q a with
    | false =>
      have hpa : p a = false := by
        cases hpa : p a
        · rfl
        · exact absurd (h a hpa) (by simp [hq])
      simp [List.filter_cons, hq, hpa, ih]
    | true => simp [List.filter_cons, hq, ih]

theorem keptRows_map_setExisting (l : List Row) (d m : List String) :
    keptRows (l.map setExisting) d [] m = (keptRows l d [] m).map setExisting := by
  unfold keptRows
  exact filter_map_setExisting _ l (fun r => rfl)

theorem keptRows_append (l₁ l₂ : List Row) (d m : List String) :
    keptRows (l₁ ++ l₂) d [] m = keptRows l₁ d [] m ++ keptRows l₂ d [] m := by
  unfold keptRows
  exact List.filter_append l₁ l₂

theorem keptRows_idem (l : List Row) (d m : List String) :
    keptRows (keptRows l d [] m) d [] m = keptRows l d [] m := by
  unfold keptRows
  exact filter_filter_of_imp _ _ (fun a h => h) l

/-- A row whose basename is nonempty and among the removal basenames is
assigned a removal reason (with no removed-functions dict). -/
theorem removalReason_ne_none (dL mL : List String) (r : Row)
    (hbn : rowFileName r ≠ "")
    (hin : rowFileName r ∈ dL.map pathName ++ mL.map pathName) :
    removalReason (dL.map pathName) (mL.map pathName) [] r ≠ none := by
  unfold removalReason
  rcases List.mem_append.mp hin with hd | hm
  · rw [if_pos ⟨hbn, hd⟩]; simp
  · by_cases hd2 : rowFileName r ∈ dL.map pathName
    · rw [if_pos ⟨hbn, hd2⟩]; simp
    · rw [if_neg (fun hc => hd2 hc.2), if_pos ⟨hbn, hm⟩]; simp

/-- A row is kept (with no removed-functions dict) unless its basename is
nonempty and among the removal basenames. -/
theorem removalReason_isNone (dL mL : List String) (r : Row)
    (h : ¬(rowFileName r ≠ "" ∧
      rowFileName r ∈ dL.map pathName ++ mL.map pathName)) :
    (removalReason (dL.map pathName) (mL.map pathName) [] r).isNone = true := by
  unfold removalReason
  rw [if_neg (fun hc => h ⟨hc.1, List.mem_append.mpr (Or.inl hc.2)⟩),
    if_neg (fun hc => h ⟨hc.1, List.mem_append.mpr (Or.inr hc.2)⟩)]
  simp

/-! ## C1 -/

/-- C1 counterexample: a previous row whose source-file field is empty and a
deleted file whose basename is also empty.  The row's basename is in the
removal basename set, yet the row survives reconciliation (the
`if file_name and ...` guard at `app.py` 184 skips rows with an empty
basename), and it did not come from the new rows (there are none). -/
theorem C1_counterexample :
    pathName exRowEmpty.sourceFile ∈ (([""] ++ []).map pathName) ∧
    exRowEmpty ∈ reconcile [exRowEmpty] [""] [] false [] exCI := by decide

/-- C1 amended: no previous row whose source file has a *nonempty* basename
in the basename set of `deleted_files ∪ modified_files` survives
reconciliation; every such row in the output is an appended new row
(`app.py` 180-238 then `csv_handler.py` 159-214). -/
theorem C1_removal_amended (prev : List Row) (deleted modified : List String)
    (generationRan : Bool) (newTests : List NewTest) (ci : ChangeInfo) (r : Row)
    (hr : r ∈ reconcile prev deleted modified generationRan newTests ci)
    (hbn : pathName r.sourceFile ≠ "")
    (hin : pathName r.sourceFile ∈ (deleted ++ modified).map pathName) :
    ∃ t ∈ newTests, r = formatNewRow ci t := by
  have hmem : pathName r.sourceFile ∈
      deleted.map pathName ++ modified.map pathName := by
    simpa [List.map_append] using hin
  by_cases hdm : deleted = [] ∧ modified = []
  · exfalso
    rw [hdm.1, hdm.2] at hmem
    simp at hmem
  · unfold reconcile at hr
    rw [removeTestCases_fst, if_neg hdm] at hr
    have key : ∀ rr : Row, rr.sourceFile = r.sourceFile → rr ∉ keptRows prev deleted [] modified := by
      intro rr hsf hk
      have hfn : rowFileName rr = pathName r.sourceFile := by
        simp [rowFileName, hsf]
      have hnone := (List.mem_filter.mp hk).2
      have := removalReason_ne_none deleted modified rr
        (by rw [hfn]; exact hbn) (by rw [hfn]; exact hmem)
      exact this (Option.isNone_iff_eq_none.mp hnone)
    cases generationRan with
    | false =>
      rw [if_neg Bool.false_ne_true] at hr
      exact absurd hr (key r rfl)
    | true =>
      rw [if_pos rfl] at hr
      unfold appendProfessionalCsv at hr
      rcases List.mem_append.mp hr with hold | hnew2
      · exfalso
        obtain ⟨r0, hr0, hr0e⟩ := List.mem_map.mp hold
        have hsf := congrArg Row.sourceFile hr0e
        exact key r0 hsf hr0
      · obtain ⟨t, ht, hte⟩ := List.mem_map.mp hnew2
        exact ⟨t, ht, hte.symm⟩

/-- Witness for the amended C1: an appended new row for a modified file is the
only row of the output whose basename is in the removal set. -/
theorem C1_removal_amended_witness :
    ∃ t ∈ [exTestA], formatNewRow exCI exTestA = formatNewRow exCI t :=
  C1_removal_amended [exRowB] [] ["a.py"] true [exTestA] exCI
    (formatNewRow exCI exTestA) (by decide) (by decide) (by decide)

/-! ## C2 -/

/-- C2 counterexample: a previous row for `b.py` — a file in none of the
change sets — does not appear byte-for-byte in the reconciled output even
when zero new rows were generated: `generate_tests` returns a truthy dict
either way, so `app.py` 895 runs the appender, which rewrites the row's
`Change Type` from `New` to `Existing` (`csv_handler.py` 164-166). -/
theorem C2_counterexample :
    exRowB ∈ ([exRowB] : List Row) ∧
    exRowB ∉ reconcile [exRowB] [] [] true [] exCI := by decide

/-- C2 amended: for a file in none of the change sets (and not targeted by
any new row), the previous rows with that source file appear in the
reconciled output in the same relative order and with every field unchanged
except `Change Type`, which is rewritten to `Existing` whenever the
generation step ran (the appender runs even with zero new rows); only when
generation never ran do the rows pass through verbatim. -/
theorem C2_stability_amended (prev : List Row) (deleted modified : List String)
    (newTests : List NewTest) (ci : ChangeInfo) (f : String)
    (hf : pathName f ∉ (deleted ++ modified).map pathName)
    (hnewf : ∀ t ∈ newTests, pathName t.file ≠ pathName f) :
    ((reconcile prev deleted modified true newTests ci).filter
        (fun r => pathName r.sourceFile == pathName f) =
      (prev.filter (fun r => pathName r.sourceFile == pathName f)).map
        setExisting) ∧
    ((reconcile prev deleted modified false newTests ci).filter
        (fun r => pathName r.sourceFile == pathName f) =
      prev.filter (fun r => pathName r.sourceFile == pathName f)) := by
  have hmem : pathName f ∉ deleted.map pathName ++ modified.map pathName := by
    simpa [List.map_append] using hf
  have hnewfilter : (newTests.map (formatNewRow ci)).filter
      (fun r => pathName r.sourceFile == pathName f) = [] := by
    rw [List.filter_eq_nil_iff]
    intro a ha
    obtain ⟨t, ht, rfl⟩ := List.mem_map.mp ha
    simpa [formatNewRow] using hnewf t ht
  have hkeep : ∀ r : Row, (pathName r.sourceFile == pathName f) = true →
      (removalReason (deleted.map pathName) (modified.map pathName) []
        r).isNone = true := by
    intro r hr
    have heq : pathName r.sourceFile = pathName f := by simpa using hr
    refine removalReason_isNone deleted modified r (fun hc => ?_)
    have hc2 := hc.2
    rw [show rowFileName r = pathName f from heq] at hc2
    exact hmem hc2
  constructor
  · unfold reconcile
    rw [if_pos rfl, removeTestCases_fst]
    by_cases hdm : deleted = [] ∧ modified = []
    · rw [if_pos hdm]
      unfold appendProfessionalCsv
      rw [List.filter_append, hnewfilter, List.append_nil]
      exact filter_map_setExisting
        (fun r => pathName r.sourceFile == pathName f) prev (fun r => rfl)
    · rw [if_neg hdm]
      unfold appendProfessionalCsv
      rw [List.filter_append, hnewfilter, List.append_nil,
        filter_map_setExisting (fun r => pathName r.sourceFile == pathName f)
          (keptRows prev deleted [] modified) (fun r => rfl)]
      congr 1
      unfold keptRows
      exact filter_filter_of_imp _ _ hkeep prev
  · unfold reconcile
    rw [if_neg Bool.false_ne_true, removeTestCases_fst]
    by_cases hdm : deleted = [] ∧ modified = []
    · rw [if_pos hdm]
    · rw [if_neg hdm]
      unfold keptRows
      exact filter_filter_of_imp _ _ hkeep prev

/-- Witness for the amended C2: the `b.py` row is carried forward — with its
change type set to `Existing` in a run that appended a row for `a.py`, and
verbatim in a run where generation never ran. -/
theorem C2_stability_amended_witness :
    ((reconcile [exRowB] ["a.py"] [] true [exTestA] exCI).filter
        (fun r => pathName r.sourceFile == pathName "b.py") =
      ([exRowB].filter (fun r => pathName r.sourceFile == pathName "b.py")).map
        setExisting) ∧
    ((reconcile [exRowB] ["a.py"] [] false [exTestA] exCI).filter
        (fun r => pathName r.sourceFile == pathName "b.py") =
      [exRowB].filter (fun r => pathName r.sourceFile == pathName "b.py")) :=
  C2_stability_amended [exRowB] ["a.py"] [] [exTestA] exCI "b.py" (by decide)
    (by decide)

/-! ## C4 -/

/-- C4 counterexample: reconciliation is not idempotent.  First, rows just
appended for a *modified* file are themselves in the removal set, so a second
run with the same descriptor removes them again.  Second, even with new rows
only for an added file, the second run's appender (which runs whenever
generation ran, with or without rows, since `generate_tests` returns a truthy
dict) rewrites every row's `Change Type` to `Existing`, so the suites
differ. -/
theorem C4_counterexample :
    reconcile (reconcile [] [] ["a.py"] true [exTestA] exCI)
        [] ["a.py"] true [] exCI ≠
      reconcile [] [] ["a.py"] true [exTestA] exCI ∧
    reconcile (reconcile [exRowB] [] [] true [exTestA] exCI)
        [] [] true [] exCI ≠
      reconcile [exRowB] [] [] true [exTestA] exCI := by decide

/-- C4 amended: provided no appended new row has a nonempty basename inside
the removal basename set (for instance when new rows only target added
files), a second run with the same change descriptor and empty new rows
yields the same suite when its generation step did not run (only-deletion
descriptors: the removal set is then genuinely absent from the output), and
otherwise yields the first run's suite with every row's `Change Type`
rewritten to `Existing` — the same rows in the same order, but not the same
bytes unless every change type was already `Existing`. -/
theorem C4_idempotence_amended (prev : List Row) (deleted modified : List String)
    (newTests : List NewTest) (ci : ChangeInfo)
    (hnew : ∀ t ∈ newTests, ¬(pathName t.file ≠ "" ∧
      pathName t.file ∈ (deleted ++ modified).map pathName)) :
    reconcile (reconcile prev deleted modified true newTests ci)
        deleted modified false [] ci
      = reconcile prev deleted modified true newTests ci ∧
    reconcile (reconcile prev deleted modified true newTests ci)
        deleted modified true [] ci
      = (reconcile prev deleted modified true newTests ci).map setExisting := by
  have hfmt : ∀ t ∈ newTests,
      (removalReason (deleted.map pathName) (modified.map pathName) []
        (formatNewRow ci t)).isNone = true := by
    intro t ht
    refine removalReason_isNone deleted modified (formatNewRow ci t)
      (fun hc => ?_)
    apply hnew t ht
    refine ⟨hc.1, ?_⟩
    simpa [List.map_append] using hc.2
  set X := reconcile prev deleted modified true newTests ci with hX
  have hclean : (removeTestCasesFromCsv X deleted [] modified).1 = X := by
    rw [removeTestCases_fst]
    by_cases hdm : deleted = [] ∧ modified = []
    · rw [if_pos hdm]
    · rw [if_neg hdm, hX]
      unfold reconcile
      rw [if_pos rfl, removeTestCases_fst, if_neg hdm]
      unfold appendProfessionalCsv
      rw [keptRows_append, keptRows_map_setExisting, keptRows_idem]
      congr 1
      unfold keptRows
      rw [List.filter_eq_self]
      intro a ha
      obtain ⟨t, ht, rfl⟩ := List.mem_map.mp ha
      exact hfmt t ht
  constructor
  · unfold reconcile
    rw [if_neg Bool.false_ne_true]
    exact hclean
  · unfold reconcile
    rw [if_pos rfl]
    unfold appendProfessionalCsv
    rw [hclean]
    simp

/-- Witness for the amended C4: with new rows only for an added file, the
no-generation second pass is the identity and the with-generation second pass
rewrites change types to `Existing`. -/
theorem C4_idempotence_amended_witness :
    (reconcile (reconcile [exRowB] ["x.py"] [] true [exTestA] exCI)
        ["x.py"] [] false [] exCI
      = reconcile [exRowB] ["x.py"] [] true [exTestA] exCI) ∧
    (reconcile (reconcile [exRowB] ["x.py"] [] true [exTestA] exCI)
        ["x.py"] [] true [] exCI
      = (reconcile [exRowB] ["x.py"] [] true [exTestA] exCI).map setExisting) :=
  C4_idempotence_amended [exRowB] ["x.py"] [] [exTestA] exCI (by decide)

/-! ## C3 -/

/-- C3 counterexample: a no-change synchronization (`has_changes = false`,
`is_new_repo = false`, legal for the spec-modelled synchronizer) for which no
previous CSV is found.  The early-return block at `app.py` 713-716 has no
else branch, so the run falls through to the full scan (line 802) and fresh
generation (lines 946-955): new test rows *are* generated and a fresh suite
is returned, not the (per spec §4.5, empty) previous suite unchanged. -/
theorem C3_counterexample :
    syncSuite none exNoChangeCI (some [exTestA]) =
      .suite [freshRowWithChange exTestA] [exTestA] := by decide

/-- C3 amended: a synchronization whose change descriptor has
`has_changes = false` (hence, by the spec-modelled synchronizer,
`is_new_repo = false`) serves the previous persisted suite unchanged and
generates no test rows *provided a previous suite is found*
(`app.py` 713-742); when none is found, the run instead regenerates
everything fresh, returning the freshly generated rows. -/
theorem C3_noop_amended (s : List Row) (ci : ChangeInfo) (rows : List NewTest)
    (hspec : SpecSyncDescriptor ci) (hnc : ci.hasChanges = false) :
    syncSuite (some s) ci (some rows) = .suite s [] ∧
    syncSuite none ci (some rows) =
      .suite (rows.map freshRowWithChange) rows := by
  have hnr : ci.isNewRepo = false := hspec hnc
  constructor
  · unfold syncSuite
    rw [if_pos ⟨hnc, hnr, rfl⟩]
    rfl
  · unfold syncSuite
    rw [if_neg (fun h => by simpa using h.2.2)]
    simp [hnc]

/-- Witness for the amended C3 at a concrete no-change run, with and without
a previous suite on disk. -/
theorem C3_noop_amended_witness :
    syncSuite (some [exRowS]) exNoChangeCI (some [exTestA]) =
      .suite [exRowS] [] ∧
    syncSuite none exNoChangeCI (some [exTestA]) =
      .suite ([exTestA].map freshRowWithChange) [exTestA] :=
  C3_noop_amended [exRowS] exNoChangeCI [exTestA] (fun _ => rfl) rfl

/-! ## C5 -/

/-- C5: none of `clone_or_pull_repository`, `get_previous_test_file`,
`get_changed_code_files`, `get_function_changes` is defined on `GitHandler`,
so the git chat flow's first repository call raises `AttributeError` and every
run ends in the "Git processing failed" handler, producing no suite. -/
theorem C5_git_flow_fails (pipelineResult : List Row) :
    ("clone_or_pull_repository" ∉ gitHandlerMethods ∧
     "get_previous_test_file" ∉ gitHandlerMethods ∧
     "get_changed_code_files" ∉ gitHandlerMethods ∧
     "get_function_changes" ∉ gitHandlerMethods) ∧
    runGitFlow gitHandlerMethods pipelineResult = .gitProcessingFailed := by
  refine ⟨by decide, ?_⟩
  unfold runGitFlow
  rw [if_neg (by decide)]

/-! ## C6 -/

/-- C6 counterexample: with a deleted file to reconcile and an unreadable
previous suite, the run aborts in the error handler (the unguarded read at
`app.py` 152) instead of degrading to an empty previous suite. -/
theorem C6_counterexample :
    reconcileFromDisk none ["a.py"] [] true [exTestA] exCI =
      Except.error "Git processing failed" := by
  unfold reconcileFromDisk
  rw [if_neg (by simp)]

/-- C6 amended: when no stale-row removal is needed (no deleted or modified
files), an unreadable previous suite is treated as empty by the guarded read
inside `append_to_previous_csv`, which produces a fresh CSV of only the new
rows (`csv_handler.py` 70-77). -/
theorem C6_fallback_amended (newTests : List NewTest) (ci : ChangeInfo)
    (_hne : newTests ≠ []) :
    reconcileFromDisk none [] [] true newTests ci =
      .ok (newTests.map freshRowNoChange) := by
  unfold reconcileFromDisk
  rw [if_pos ⟨rfl, rfl⟩, if_pos rfl]
  rfl

/-- Witness for the amended C6 at a concrete new test. -/
theorem C6_fallback_amended_witness :
    reconcileFromDisk none [] [] true [exTestA] exCI =
      .ok ([exTestA].map freshRowNoChange) :=
  C6_fallback_amended [exTestA] exCI (by decide)

/-! ## C7 -/

/-- C7 counterexample: a rename reported with status `R` puts its single
reported path in `modified_files` and nothing in `deleted_files`
(`app.py` 752-761), so no old path of a rename ever lands in
`deleted_files`. -/
theorem C7_counterexample :
    classifiedFiles exRenameCI .modified = ["new_name.py"] ∧
    classifiedFiles exRenameCI .deleted = [] := by decide

/-- C7 amended: a Renamed status is classified as Modified for the single
path carried by the entry; `deleted_files` receives only paths of entries
with status `D` (or bare paths found in the descriptor's `deleted_files`
key), never the old path of a rename. -/
theorem C7_rename_amended (ci : ChangeInfo) (p : String)
    (h : ChangeEntry.dict "R" p ∈ ci.changedFiles) :
    p ∈ classifiedFiles ci .modified ∧
    ∀ q ∈ classifiedFiles ci .deleted,
      ChangeEntry.dict "D" q ∈ ci.changedFiles ∨
      (ChangeEntry.str q ∈ ci.changedFiles ∧ q ∉ ci.newFiles ∧
       q ∈ ci.deletedFiles) := by
  constructor
  · exact List.mem_filterMap.mpr ⟨.dict "R" p, h, by simp [classifyEntry]⟩
  · intro q hq
    obtain ⟨e, he, hce⟩ := List.mem_filterMap.mp hq
    cases e with
    | dict st f =>
      left
      by_cases hA : st = "A"
      · simp [classifyEntry, hA] at hce
      · by_cases hD : st = "D"
        · subst hD
          simp [classifyEntry] at hce
          exact hce ▸ he
        · by_cases hMR : st = "M" ∨ st = "R"
          · simp [classifyEntry, hA, hD, hMR] at hce
          · simp [classifyEntry, hA, hD, hMR] at hce
    | str pp =>
      right
      by_cases hn : pp ∈ ci.newFiles
      · simp [classifyEntry, hn] at hce
      · by_cases hd : pp ∈ ci.deletedFiles
        · simp [classifyEntry, hn, hd] at hce
          exact hce ▸ ⟨he, hn, hd⟩
        · by_cases hm : pp ∈ ci.modifiedFiles
          · simp [classifyEntry, hn, hd, hm] at hce
          · simp [classifyEntry, hn, hd, hm] at hce

/-- Witness for the amended C7 at the concrete rename descriptor. -/
theorem C7_rename_amended_witness :
    "new_name.py" ∈ classifiedFiles exRenameCI .modified ∧
    ∀ q ∈ classifiedFiles exRenameCI .deleted,
      ChangeEntry.dict "D" q ∈ exRenameCI.changedFiles ∨
      (ChangeEntry.str q ∈ exRenameCI.changedFiles ∧
       q ∉ exRenameCI.newFiles ∧ q ∈ exRenameCI.deletedFiles) :=
  C7_rename_amended exRenameCI "new_name.py" (by decide)

/-! ## C9 -/

theorem scanFilesAcc_mono (maxFiles : Nat) (x : FileEntry) (fs : List FileEntry) :
    ∀ acc, x ∈ acc → x ∈ scanFilesAcc maxFiles acc fs := by
  induction fs with
  | nil => intro acc hx; simpa [scanFilesAcc] using hx
  | cons f fs ih =>
    intro acc hx
    unfold scanFilesAcc
    split
    · split
      · split
        · split
          · exact List.mem_append_left _ hx
          · exact ih _ (List.mem_append_left _ hx)
        · exact ih _ hx
      · exact ih _ hx
    · exact ih _ hx

theorem scanFilesAcc_sound (maxFiles : Nat) (x : FileEntry) (fs : List FileEntry) :
    ∀ acc, x ∈ scanFilesAcc maxFiles acc fs → x ∈ acc ∨ qualifies x = true := by
  induction fs with
  | nil => intro acc hx; exact Or.inl (by simpa [scanFilesAcc] using hx)
  | cons f fs ih =>
    intro acc hx
    unfold scanFilesAcc at hx
    split at hx
    · rename_i h1
      split at hx
      · rename_i h2
        split at hx
        · rename_i h3
          have hq : qualifies f = true := by
            simp only [qualifies, Bool.and_eq_true, decide_eq_true_eq]
            exact ⟨⟨h1, h2⟩, h3⟩
          split at hx
          · rcases List.mem_append.mp hx with hxa | hxf
            · exact Or.inl hxa
            · have hxe : x = f := by simpa using hxf
              exact Or.inr (hxe ▸ hq)
          · rcases ih _ hx with hxa | hxq
            · rcases List.mem_append.mp hxa with hxa2 | hxf
              · exact Or.inl hxa2
              · have hxe : x = f := by simpa using hxf
                exact Or.inr (hxe ▸ hq)
            · exact Or.inr hxq
        · exact ih _ hx
      · exact ih _ hx
    · exact ih _ hx

theorem scanFilesAcc_complete (maxFiles : Nat) (fs : List FileEntry) :
    ∀ acc, (scanFilesAcc maxFiles acc fs).length < maxFiles →
      ∀ f ∈ fs, qualifies f = true → f ∈ scanFilesAcc maxFiles acc fs := by
  induction fs with
  | nil => intro acc _ f hf; exact absurd hf (List.not_mem_nil f)
  | cons g fs ih =>
    intro acc hlen f hf hq
    unfold scanFilesAcc at hlen ⊢
    rcases List.mem_cons.mp hf with rfl | hf2
    · have hq2 := hq
      simp only [qualifies, Bool.and_eq_true, decide_eq_true_eq] at hq2
      obtain ⟨⟨h1, h2⟩, h3⟩ := hq2
      by_cases h4 : maxFiles ≤ acc.length + 1
      · rw [if_pos h1, if_pos h2, if_pos h3, if_pos h4]
        exact List.mem_append_right _ (by simp)
      · rw [if_pos h1, if_pos h2, if_pos h3, if_neg h4]
        exact scanFilesAcc_mono _ _ _ _ (List.mem_append_right _ (by simp))
    · by_cases h1 : codeExtensions.contains (pyToLower (pySuffix g.name)) = true
      · by_cases h2 : g.readable = true
        · by_cases h3 : g.size < 1000000
          · by_cases h4 : maxFiles ≤ acc.length + 1
            · rw [if_pos h1, if_pos h2, if_pos h3, if_pos h4] at hlen
              rw [List.length_append] at hlen
              simp at hlen
              omega
            · rw [if_pos h1, if_pos h2, if_pos h3, if_neg h4] at hlen ⊢
              exact ih _ hlen f hf2 hq
          · rw [if_pos h1, if_pos h2, if_neg h3] at hlen ⊢
            exact ih _ hlen f hf2 hq
        · rw [if_pos h1, if_neg h2] at hlen ⊢
          exact ih _ hlen f hf2 hq
      · rw [if_neg h1] at hlen ⊢
        exact ih _ hlen f hf2 hq

mutual
theorem scanTree_mono (maxFiles : Nat) (x : FileEntry) (t : FSTree) :
    ∀ acc, x ∈ acc → x ∈ scanTree maxFiles acc t := by
  cases t with
  | node n files subdirs =>
    intro acc hx
    unfold scanTree
    split
    · exact scanFilesAcc_mono _ _ _ _ hx
    · exact scanForest_mono _ _ subdirs _ (scanFilesAcc_mono _ _ _ _ hx)

theorem scanForest_mono (maxFiles : Nat) (x : FileEntry) (ts : FSForest) :
    ∀ acc, x ∈ acc → x ∈ scanForest maxFiles acc ts := by
  cases ts with
  | noDirs => intro acc hx; simpa [scanForest] using hx
  | cons t ts =>
    intro acc hx
    unfold scanForest
    split
    · split
      · exact scanTree_mono _ _ t _ hx
      · exact scanForest_mono _ _ ts _ (scanTree_mono _ _ t _ hx)
    · exact scanForest_mono _ _ ts _ hx
end

mutual
theorem scanTree_sound (maxFiles : Nat) (x : FileEntry) (t : FSTree) :
    ∀ acc, x ∈ scanTree maxFiles acc t → x ∈ acc ∨ qualifies x = true := by
  cases t with
  | node n files subdirs =>
    intro acc hx
    unfold scanTree at hx
    split at hx
    · exact scanFilesAcc_sound _ _ _ _ hx
    · rcases scanForest_sound _ _ subdirs _ hx with hx2 | hq
      · exact scanFilesAcc_sound _ _ _ _ hx2
      · exact Or.inr hq

theorem scanForest_sound (maxFiles : Nat) (x : FileEntry) (ts : FSForest) :
    ∀ acc, x ∈ scanForest maxFiles acc ts → x ∈ acc ∨ qualifies x = true := by
  cases ts with
  | noDirs => intro acc hx; exact Or.inl (by simpa [scanForest] using hx)
  | cons t ts =>
    intro acc hx
    unfold scanForest at hx
    split at hx
    · split at hx
      · exact scanTree_sound _ _ t _ hx
      · rcases scanForest_sound _ _ ts _ hx with hx2 | hq
        · exact scanTree_sound _ _ t _ hx2
        · exact Or.inr hq
    · exact scanForest_sound _ _ ts _ hx
end

mutual
theorem scanTree_complete (maxFiles : Nat) (t : FSTree) :
    ∀ acc, (scanTree maxFiles acc t).length < maxFiles →
      ∀ e ∈ visibleFiles t, qualifies e = true →
        e ∈ scanTree maxFiles acc t := by
  cases t with
  | node n files subdirs =>
    intro acc hlen e he hq
    unfold scanTree at hlen ⊢
    unfold visibleFiles at he
    by_cases hc : maxFiles ≤ (scanFilesAcc maxFiles acc files).length
    · rw [if_pos hc] at hlen
      omega
    · rw [if_neg hc] at hlen ⊢
      have hlen2 : (scanFilesAcc maxFiles acc files).length < maxFiles := by
        omega
      rcases List.mem_append.mp he with hef | hes
      · exact scanForest_mono _ _ subdirs _
          (scanFilesAcc_complete _ _ _ hlen2 e hef hq)
      · exact scanForest_complete _ subdirs _ hlen e hes hq

theorem scanForest_complete (maxFiles : Nat) (ts : FSForest) :
    ∀ acc, (scanForest maxFiles acc ts).length < maxFiles →
      ∀ e ∈ visibleForest ts, qualifies e = true →
        e ∈ scanForest maxFiles acc ts := by
  cases ts with
  | noDirs =>
    intro acc _ e he
    exact absurd he (by simp [visibleForest])
  | cons t ts =>
    intro acc hlen e he hq
    unfold scanForest at hlen ⊢
    unfold visibleForest at he
    by_cases hk : keepDir t = true
    · rw [if_pos hk] at hlen ⊢
      rw [if_pos hk] at he
      by_cases hc : maxFiles ≤ (scanTree maxFiles acc t).length
      · rw [if_pos hc] at hlen
        omega
      · rw [if_neg hc] at hlen ⊢
        have hlent : (scanTree maxFiles acc t).length < maxFiles := by omega
        rcases List.mem_append.mp he with het | hets
        · exact scanForest_mono _ _ ts _
            (scanTree_complete _ t _ hlent e het hq)
        · exact scanForest_complete _ ts _ hlen e hets hq
    · rw [if_neg hk] at hlen ⊢
      rw [if_neg hk] at he
      simp only [List.nil_append] at he
      exact scanForest_complete _ ts _ hlen e he hq
end

/-- C9 counterexample: a readable file with an allowed extension and size
exactly 1,000,000 bytes — "not exceeding the ceiling" — is skipped, because
the code keeps only files with `size < 1_000_000`
(`git_handler.py` 306-309). -/
theorem C9_counterexample :
    codeExtensions.contains (pyToLower (pySuffix "big.py")) = true ∧
    (1000000 : Nat) ≤ 1000000 ∧
    getCodeFiles exBoundaryTree 100 = [] := by decide

/-- C9 amended: every returned file has an allowed extension, a successful
stat, and size *strictly below* 1,000,000 bytes; and, as long as the
`max_files` cap was not reached, every reachable readable file with an
allowed extension and size strictly below 1,000,000 bytes is returned. -/
theorem C9_scanner_amended (t : FSTree) (maxFiles : Nat) (e : FileEntry) :
    (e ∈ getCodeFiles t maxFiles → qualifies e = true) ∧
    ((getCodeFiles t maxFiles).length < maxFiles → e ∈ visibleFiles t →
      qualifies e = true → e ∈ getCodeFiles t maxFiles) := by
  constructor
  · intro he
    rcases scanTree_sound maxFiles e t [] he with h | h
    · exact absurd h (List.not_mem_nil e)
    · exact h
  · intro hlen he hq
    exact scanTree_complete maxFiles t [] hlen e he hq

/-- Witness for the amended C9: the small python file of the example tree is
returned, and is the only returned file. -/
theorem C9_scanner_amended_witness :
    (getCodeFiles exSmallTree 100).length < 100 ∧
    exMainFile ∈ visibleFiles exSmallTree ∧ qualifies exMainFile = true ∧
    exMainFile ∈ getCodeFiles exSmallTree 100 :=
  ⟨by decide, by decide, by decide,
    (C9_scanner_amended exSmallTree 100 exMainFile).2 (by decide) (by decide)
      (by decide)⟩

/-! ## C8 -/

/-- C8 counterexample: a first-attempt quota error is *not* retried — the
loop returns the quota error string immediately after one attempt with no
backoff sleeps (`llm_handler.py` 84-85) even though the next attempt would
have succeeded. -/
theorem C8_counterexample :
    makeRequest quotaFirstRun 3 = ⟨quotaErrorText, 1, []⟩ ∧
    quotaFirstRun 1 = .ok "[]" := by decide

/-- C8 amended: transient failures (empty responses, and exceptions whose
message mentions neither quota nor api key) are retried with exponential
backoff (sleeps of 2 then 4 seconds) up to the fixed 3 attempts, after which
the call returns an error string describing the last failure instead of
raising; quota and api-key errors short-circuit without retry. -/
theorem C8_retry_amended (responses : Nat → CallResult)
    (h : ∀ i, i < 3 → transientFailure (responses i) = true) :
    makeRequest responses 3 =
      ⟨(match responses 2 with
        | .ok _ => "Error: Empty response from Gemini"
        | .err m => "Error: " ++ m), 3, [2, 4]⟩ := by
  have step : ∀ (fuel attempt delay : Nat) (delays : List Nat),
      transientFailure (responses attempt) = true → attempt + 1 < 3 →
      requestLoop responses 3 (fuel + 1) attempt delay delays =
        requestLoop responses 3 fuel (attempt + 1) (delay * 2)
          (delays ++ [delay]) := by
    intro fuel attempt delay delays ht hlt
    cases hr : responses attempt with
    | ok t =>
      rw [hr] at ht
      have ht2 : t = "" := by simpa [transientFailure] using ht
      simp [requestLoop, hr, ht2, hlt]
    | err m =>
      rw [hr] at ht
      have ht2 := (by simpa [transientFailure] using ht :
        ¬strContainsSub (pyToLower m) "quota" = true ∧
        ¬strContainsSub (pyToLower m) "api key" = true)
      simp [requestLoop, hr, ht2.1, ht2.2, hlt]
  have last : ∀ (fuel delay : Nat) (delays : List Nat),
      transientFailure (responses 2) = true →
      requestLoop responses 3 (fuel + 1) 2 delay delays =
        ⟨(match responses 2 with
          | .ok _ => "Error: Empty response from Gemini"
          | .err m => "Error: " ++ m), 3, delays⟩ := by
    intro fuel delay delays ht
    cases hr : responses 2 with
    | ok t =>
      rw [hr] at ht
      have ht2 : t = "" := by simpa [transientFailure] using ht
      simp [requestLoop, hr, ht2]
    | err m =>
      rw [hr] at ht
      have ht2 := (by simpa [transientFailure] using ht :
        ¬strContainsSub (pyToLower m) "quota" = true ∧
        ¬strContainsSub (pyToLower m) "api key" = true)
      simp [requestLoop, hr, ht2.1, ht2.2]
  unfold makeRequest
  rw [show requestLoop responses 3 3 0 2 [] =
      requestLoop responses 3 (2 + 1) 0 2 [] from rfl,
    step 2 0 2 [] (h 0 (by omega)) (by omega),
    show requestLoop responses 3 2 1 (2 * 2) ([] ++ [2]) =
      requestLoop responses 3 (1 + 1) 1 4 [2] from rfl,
    step 1 1 4 [2] (h 1 (by omega)) (by omega),
    show requestLoop responses 3 1 2 (4 * 2) ([2] ++ [4]) =
      requestLoop responses 3 (0 + 1) 2 8 [2, 4] from rfl,
    last 0 8 [2, 4] (h 2 (by omega))]

/-- Witness for the amended C8: three connection errors in a row exhaust the
three attempts with backoff sleeps of 2 and 4 seconds and return an error
string. -/
theorem C8_retry_amended_witness :
    makeRequest timeoutRun 3 =
      ⟨(match timeoutRun 2 with
        | .ok _ => "Error: Empty response from Gemini"
        | .err m => "Error: " ++ m), 3, [2, 4]⟩ :=
  C8_retry_amended timeoutRun (by decide)

/-! ## C10 -/

/-- C10: for every repository URL the sanitized name is nonempty and contains
only alphanumeric characters, hyphens and underscores (`git_handler.py`
407-422). -/
theorem C10_sanitize_wellformed (repoUrl : String) :
    sanitizeRepoName repoUrl ≠ "" ∧
    (sanitizeRepoName repoUrl).toList.all
      (fun c => pyIsAlnum c || c == '-' || c == '_') = true := by
  unfold sanitizeRepoName
  by_cases h : sanitizeKept repoUrl = []
  · rw [if_pos h]
    exact ⟨by decide, by decide⟩
  · rw [if_neg h]
    constructor
    · intro heq
      exact h (congrArg String.toList heq)
    · refine List.all_eq_true.mpr (fun c hc => ?_)
      have hc2 : c ∈ sanitizeKept repoUrl := hc
      exact (List.mem_filter.mp hc2).2

end TestCaseGen
